import Mathlib

/-!
LLH-Newone: verification development

Shallow embedding of three source units of the bot:

* `src/commands/system/reload.js`  (`Reload.run`)
* `src/commands/fun/wanted.js`     (`getWanted`, `Wanted.run`)
* `src/functions/dashboard.js`     (guards and guild endpoints)

Asynchronous JavaScript is embedded by explicit state passing: every run
returns the trace of the collaborator calls it made, the resulting state
and whether it returned or threw.
-/

set_option autoImplicit false
set_option exponentiation.threshold 2048

namespace LLH

/-! ## Part 1: `src/commands/system/reload.js` -/

/-- Value handed back by `client.unloadCommand` and `client.loadCommand`:
either a falsy value (`false`, `undefined`) or a message string. -/
inductive Response where
  | falsy : Response
  | text : String → Response
  deriving DecidableEq, Repr

/-- JavaScript truthiness of a response: a string is truthy unless empty. -/
def Response.truthy : Response → Bool
  | .falsy => false
  | .text s => s != ""

/-- String conversion done by the template literal on a truthy response. -/
def Response.render : Response → String
  | .falsy => "false"
  | .text s => s

/-- The `conf` object of a command; `location` is the directory it was loaded from. -/
structure Conf where
  location : String
  deriving DecidableEq, Repr

/-- A command descriptor as stored in `client.commands`. -/
structure Command where
  conf : Conf
  deriving DecidableEq, Repr

/-- The collection `client.commands`, kept as an association list so that the
number of descriptors stored under one name can be counted. -/
abbrev Commands := List (String × Command)

/-- Lookup `client.commands.get(key)`; an `undefined` key names no entry. -/
def Commands.get (cs : Commands) : Option String → Option Command
  | none => none
  | some k => cs.lookup k

/-- Number of descriptors registered under `name`. -/
def Commands.count (cs : Commands) (name : String) : Nat :=
  (cs.filter (fun e => e.1 == name)).length

/-- The client as seen by `Reload.run`: the registry and the two loader
operations, which are defined outside the files at hand. Each takes the registry,
the location and the name, and gives the registry it leaves behind together
with its response, or the error it raised. -/
structure Client where
  commands : Commands
  unloadCommand : Commands → String → String → Commands × Except String Response
  loadCommand : Commands → String → String → Commands × Except String Response

/-- Observable steps of one run of the reload command. -/
inductive Event where
  | lookup : Option String → Event
  | unload : String → String → Event
  | load : String → String → Event
  | reply : String → Event
  deriving DecidableEq, Repr

/-- How a run ended. -/
inductive Ending where
  | returned : Ending
  | threw : String → Ending
  deriving DecidableEq, Repr

/-- Result of one run of the reload command. `history` lists the successive
registry states, the last one being the final state. -/
structure ReloadRun where
  events : List Event
  history : List Commands
  commands : Commands
  ending : Ending

/-- The property read `args.size`: `args` is an array, which has `length` but no
`size`, so the read gives `undefined`. -/
def argsSize (_args : List String) : Option Int := none

/-- The comparison `x < 1`, where an `undefined` operand converts to `NaN` and
compares false. -/
def ltOne : Option Int → Bool
  | none => false
  | some n => decide (n < 1)

/-- The guard `!args || args.size < 1`. -/
def noArgs : Option (List String) → Bool
  | none => true
  | some args => ltOne (argsSize args)

/-- The success reply of the reload command. -/
def reloadedReply (name : String) : String :=
  "The command `" ++ name ++ "` has been reloaded"

/-- The method `Reload.run(message, args, level)`. -/
def Reload.run (client : Client) (args : Option (List String)) : ReloadRun :=
  if noArgs args then
    { events := [.reply "Must provide a command to reload. Derp."],
      history := [client.commands], commands := client.commands, ending := .returned }
  else
    let arg0 : Option String := (args.getD []).head?
    match client.commands.get arg0, arg0 with
    | some cmd, some name =>
      match client.unloadCommand client.commands cmd.conf.location name with
      | (cs1, .error e) =>
        { events := [.lookup arg0, .unload cmd.conf.location name],
          history := [client.commands, cs1], commands := cs1, ending := .threw e }
      | (cs1, .ok response) =>
        if response.truthy then
          { events := [.lookup arg0, .unload cmd.conf.location name,
                       .reply ("Error Unloading: " ++ response.render)],
            history := [client.commands, cs1], commands := cs1, ending := .returned }
        else
          match client.loadCommand cs1 cmd.conf.location name with
          | (cs2, .error e) =>
            { events := [.lookup arg0, .unload cmd.conf.location name,
                         .load cmd.conf.location name],
              history := [client.commands, cs1, cs2], commands := cs2, ending := .threw e }
          | (cs2, .ok response2) =>
            if response2.truthy then
              { events := [.lookup arg0, .unload cmd.conf.location name,
                           .load cmd.conf.location name,
                           .reply ("Error loading: " ++ response2.render)],
                history := [client.commands, cs1, cs2], commands := cs2, ending := .returned }
            else
              { events := [.lookup arg0, .unload cmd.conf.location name,
                           .load cmd.conf.location name,
                           .reply (reloadedReply name)],
                history := [client.commands, cs1, cs2], commands := cs2, ending := .returned }
    | _, _ =>
      { events := [.lookup arg0], history := [client.commands], commands := client.commands,
        ending := .threw "TypeError: Cannot read property 'conf' of undefined" }

/-- Replies sent to the caller during a run, in order. -/
def replies : List Event → List String
  | [] => []
  | .reply t :: es => t :: replies es
  | _ :: es => replies es

/-- Whether the event is a call of `client.loadCommand`. -/
def Event.isLoad : Event → Bool
  | .load _ _ => true
  | _ => false

/-- Whether the event is a call of `client.unloadCommand`. -/
def Event.isUnload : Event → Bool
  | .unload _ _ => true
  | _ => false

/-- Whether the event is a lookup in `client.commands`. -/
def Event.isLookup : Event → Bool
  | .lookup _ => true
  | _ => false

/-- A registry and loader for the examples: `unloadCommand` removes the entry
and `loadCommand` refuses to load. -/
def demoClient : Client :=
  { commands := [("wanted", { conf := { location := "./commands/fun" } })],
    unloadCommand := fun cs _ name => (cs.filter (fun e => e.1 != name), .ok .falsy),
    loadCommand := fun cs _ name => (cs, .ok (.text ("Unable to load command " ++ name))) }

/-- A loader whose `unloadCommand` refuses and leaves the registry alone. -/
def stuckClient : Client :=
  { demoClient with
    unloadCommand := fun cs _ _ => (cs, .ok (.text "busy")) }

/-! ## Part 2: `src/commands/fun/wanted.js` -/

/-- A user of the chat platform, with the fields the sources read. The read
`user['displayName']` is optional: the platform library decides whether a user
object carries it. -/
structure User where
  id : String
  username : String
  discriminator : String
  tag : String
  bot : Bool
  status : String
  createdTimestamp : Int
  displayAvatarURL : String
  displayName : Option String
  deriving DecidableEq, Repr

/-- A role of a guild member. -/
structure Role where
  name : String
  id : String
  hexColor : String
  deriving DecidableEq, Repr

/-- A member of a guild. `permissions` is the resolved permission set that
`permissions.has` consults. -/
structure GuildMember where
  id : String
  user : User
  displayName : String
  joinedTimestamp : Int
  highestRoleHexColor : String
  roles : List Role
  permissions : List String
  deriving DecidableEq, Repr

/-- Binary content (file, HTTP body, rendered canvas). -/
abbrev Buffer := List Nat

/-- Balances of the economy, by user id. -/
abbrev Ledger := String → Int

/-- What is passed to `message.channel.send`. -/
inductive Payload where
  | text : String → Payload
  | file : Buffer → String → Payload
  deriving DecidableEq, Repr

/-- The invoking message: its author, the author's member object (absent outside
a guild) and the guild. -/
structure Message where
  authorId : String
  member : Option GuildMember
  guildId : String

/-- Collaborators of the `wanted` command. `helpCost` and `botPerms` are the
reads `this.help.cost` and `this.conf.botPerms`, which the base class sets up
from the constructor options `cost: 5` and
`botPerms: ['SEND_MESSAGES', 'ATTACH_FILES']`. Each operation may fail, which is the `error`
case of its result. `cmdPay` owns the ledger: it takes the ledger and gives back
the ledger it leaves, with its result. -/
structure WantedEnv where
  helpCost : Int
  botPerms : List String
  verifyMember : String → String → Except String (Option GuildMember)
  cmdDis : Int → Int → Int
  cmdPay : Ledger → Message → String → Int → List String → Ledger × Except String Bool
  send : Payload → Except String Nat
  readFile : String → Except String Buffer
  get : String → Except String Buffer
  toBuffer : Buffer → Buffer → Except String Buffer
  delete : Nat → Except String Unit

/-- Observable steps of one run of the `wanted` command. -/
inductive WEvent where
  | verify : String → WEvent
  | pay : String → Int → WEvent
  | send : Payload → WEvent
  | readFile : String → WEvent
  | get : String → WEvent
  | compose : WEvent
  | delete : Nat → WEvent
  deriving DecidableEq, Repr

/-- Line terminators, which the regular-expression dot does not match. -/
def isLineTerminator (c : Char) : Bool :=
  c == '\n' || c == '\r' || c.val == 0x2028 || c.val == 0x2029

/-- Whether `/\.gif.+/` matches at the head of the input: the four characters
`.gif` followed by at least one character that is not a line terminator. -/
def gifAhead : List Char → Bool
  | '.' :: 'g' :: 'i' :: 'f' :: d :: _ => !isLineTerminator d
  | _ => false

/-- The scan of `replace(/\.gif.+/g, '.png')`. With `skipping` set the scan is
inside a match, whose greedy `.+` consumes up to the next line terminator. -/
def replaceGifScan : Bool → List Char → List Char
  | _, [] => []
  | true, c :: cs =>
    if isLineTerminator c then c :: replaceGifScan false cs else replaceGifScan true cs
  | false, c :: cs =>
    if gifAhead (c :: cs) then '.' :: 'p' :: 'n' :: 'g' :: replaceGifScan true cs
    else c :: replaceGifScan false cs

/-- The expression `person.replace(/\.gif.+/g, '.png')`. -/
def replaceGif (person : String) : String :=
  String.mk (replaceGifScan false person.data)

/-- The function `getWanted(person)`: its steps and its result. -/
def getWanted (env : WantedEnv) (person : String) : List WEvent × Except String Buffer :=
  match env.readFile "./assets/images/plate_wanted.jpg" with
  | .error e => ([.readFile "./assets/images/plate_wanted.jpg"], .error e)
  | .ok plate =>
    let png := replaceGif person
    match env.get png with
    | .error e => ([.readFile "./assets/images/plate_wanted.jpg", .get png], .error e)
    | .ok body =>
      ([.readFile "./assets/images/plate_wanted.jpg", .get png, .compose],
        env.toBuffer plate body)

/-- Result of one run of the `wanted` command. -/
structure WantedRun where
  events : List WEvent
  ledger : Ledger
  ending : Ending

/-- Truthiness of `args[0]`: absent and empty arguments are falsy. -/
def argTruthy : Option String → Bool
  | none => false
  | some s => s != ""

/-- The part of `Wanted.run` after the payment went through. Every failure is
caught and thrown again unchanged by the `catch` clause. -/
def Wanted.body (env : WantedEnv) (ledger : Ledger) (pre : List WEvent)
    (wanted : Option GuildMember) : WantedRun :=
  match env.send (.text "Fetching the Sheriff...") with
  | .error e =>
    { events := pre ++ [.send (.text "Fetching the Sheriff...")], ledger := ledger,
      ending := .threw e }
  | .ok msg =>
    match wanted with
    | none =>
      { events := pre ++ [.send (.text "Fetching the Sheriff...")], ledger := ledger,
        ending := .threw "TypeError: Cannot read property 'user' of undefined" }
    | some w =>
      match getWanted env w.user.displayAvatarURL with
      | (evs, .error e) =>
        { events := pre ++ [.send (.text "Fetching the Sheriff...")] ++ evs, ledger := ledger,
          ending := .threw e }
      | (evs, .ok result) =>
        match env.send (.file result "wanted.jpg") with
        | .error e =>
          { events := pre ++ [.send (.text "Fetching the Sheriff...")] ++ evs
              ++ [.send (.file result "wanted.jpg")],
            ledger := ledger, ending := .threw e }
        | .ok _ =>
          match env.delete msg with
          | .error e =>
            { events := pre ++ [.send (.text "Fetching the Sheriff...")] ++ evs
                ++ [.send (.file result "wanted.jpg"), .delete msg],
              ledger := ledger, ending := .threw e }
          | .ok _ =>
            { events := pre ++ [.send (.text "Fetching the Sheriff...")] ++ evs
                ++ [.send (.file result "wanted.jpg"), .delete msg],
              ledger := ledger, ending := .returned }

/-- The steps of `Wanted.run` from the cost computation on, for the resolved
target `wanted`. -/
def Wanted.pay (env : WantedEnv) (ledger : Ledger) (message : Message) (level : Int)
    (pre : List WEvent) (wanted : Option GuildMember) : WantedRun :=
  let cost := env.cmdDis env.helpCost level
  match env.cmdPay ledger message message.authorId cost env.botPerms with
  | (ledger1, .error e) =>
    { events := pre ++ [.pay message.authorId cost], ledger := ledger1, ending := .threw e }
  | (ledger1, .ok payMe) =>
    if !payMe then
      { events := pre ++ [.pay message.authorId cost], ledger := ledger1, ending := .returned }
    else
      Wanted.body env ledger1 (pre ++ [.pay message.authorId cost]) wanted

/-- The target of the poster: `message.member` when `args[0]` is falsy, else the
result of `this.verifyMember(message.guild, args[0])`. -/
def Wanted.target (env : WantedEnv) (message : Message) (args : List String) :
    Except String (Option GuildMember) :=
  if !argTruthy args.head? then .ok message.member
  else env.verifyMember message.guildId (args.headD "")

/-- The steps made while resolving the target. -/
def Wanted.targetSteps (args : List String) : List WEvent :=
  if !argTruthy args.head? then [] else [.verify (args.headD "")]

/-- The method `Wanted.run(message, args, level)`. -/
def Wanted.run (env : WantedEnv) (ledger : Ledger) (message : Message) (args : List String)
    (level : Int) : WantedRun :=
  match Wanted.target env message args with
  | .error e => { events := Wanted.targetSteps args, ledger := ledger, ending := .threw e }
  | .ok wanted => Wanted.pay env ledger message level (Wanted.targetSteps args) wanted

/-- Modelled from the spec: the ledger operation `charge(userId, amount)` behind
`cmdPay`, which is defined in the `Social` base class: it fails when `amount`
exceeds the balance and otherwise decrements the balance by `amount`. -/
def charge (ledger : Ledger) (_message : Message) (userId : String) (amount : Int)
    (_perms : List String) : Ledger × Except String Bool :=
  if amount > ledger userId then (ledger, .ok false)
  else (Function.update ledger userId (ledger userId - amount), .ok true)

/-- Whether the step belongs to the body that follows the payment: a channel
send, a step of `getWanted`, or a message deletion. -/
def WEvent.isBodyStep : WEvent → Bool
  | .verify _ => false
  | .pay _ _ => false
  | _ => true

/-- A user for the examples. -/
def demoUser : User :=
  { id := "u1", username := "ann", discriminator := "0001", tag := "ann#0001", bot := false,
    status := "online", createdTimestamp := 0,
    displayAvatarURL := "https://cdn.example/avatars/u1/a.gif?size=2048",
    displayName := none }

/-- The member object of `demoUser`, without permissions. -/
def demoMember : GuildMember :=
  { id := "u1", user := demoUser, displayName := "Ann", joinedTimestamp := 0,
    highestRoleHexColor := "#000000", roles := [], permissions := [] }

/-- A message sent by `demoUser` in guild `g1`. -/
def demoMessage : Message :=
  { authorId := "u1", member := some demoMember, guildId := "g1" }

/-- The ledger in which every balance is `n`. -/
def ledgerOf (n : Int) : Ledger := fun _ => n

/-- An environment whose payment is the ledger charge and whose channel rejects
every send. -/
def brokenSendEnv : WantedEnv :=
  { helpCost := 5, botPerms := ["SEND_MESSAGES", "ATTACH_FILES"],
    verifyMember := fun _ _ => .ok (some demoMember),
    cmdDis := fun cost _ => cost,
    cmdPay := charge,
    send := fun _ => .error "Missing Permissions",
    readFile := fun _ => .ok [],
    get := fun _ => .ok [],
    toBuffer := fun _ _ => .ok [],
    delete := fun _ => .ok () }

/-- Events of a run that follow the payment step. -/
def afterPay : List WEvent → List WEvent
  | [] => []
  | .pay _ _ :: es => es
  | _ :: es => afterPay es

/-! ## Part 3: `src/functions/dashboard.js` -/

/-- A guild known to the bot. -/
structure Guild where
  id : String
  members : List GuildMember
  deriving DecidableEq, Repr

/-- A settings object: its keys in enumeration order, each with its value;
`none` is the value `undefined`. -/
abbrev Settings := List (String × Option String)

/-- The state the dashboard handlers work on: the owner id
(`client.appInfo.owner.id`), `client.guilds`, the store `client.settings`
(`none` when `get` gives `undefined`), `client.config.defaultSettings`, and the
ids of the guilds on which `leave()` has been called. -/
structure DashClient where
  ownerId : String
  guilds : List Guild
  settings : String → Option Settings
  defaultSettings : Settings
  left : List String

/-- An incoming request. `user` is `req.user`; following the session library,
`req.isAuthenticated()` holds exactly when `req.user` is set. `originalURL` is
the property read `req.originalURL`. -/
structure Request where
  user : Option User
  url : String
  originalURL : Option String
  guildID : String
  body : List (String × String)
  query : String → Option String

/-- The call `req.isAuthenticated()`. -/
def Request.isAuthenticated (req : Request) : Bool := req.user.isSome

/-- One entry of the `members` array of the member-list answer. -/
structure MemberView where
  id : String
  status : String
  bot : Bool
  username : String
  displayName : String
  tag : String
  discriminator : String
  joinedAt : Int
  createdAt : Int
  highestRoleHexColor : String
  memberFor : String
  roles : List Role
  deriving DecidableEq

/-- A JavaScript number as far as the member-list endpoint meets one: `NaN`, a
double whose value is the integer given, or an infinity (`inf true` is
`-Infinity`). Negative zero is `fin 0`. -/
inductive Num where
  | nan : Num
  | fin : Int → Num
  | inf : Bool → Num
  deriving DecidableEq, Repr

/-- The JSON answer of the member-list endpoint. `none` in `page` or `pageof` is a
value that is not a finite number, which JSON writes as `null`. `page` is the
exact value of `(start/limit)+1`, of which the source holds the nearest double. -/
structure ListBody where
  total : Nat
  page : Option ℚ
  pageof : Option Int
  members : List MemberView
  deriving DecidableEq

/-- Calls a guard or handler makes, in order. A call on `res` is recorded as
made; what the web framework does with it is not interpreted. -/
inductive Effect where
  | next : Effect
  | setBackURL : Option String → Effect
  | redirect : String → Effect
  | status : Nat → Effect
  | render : String → Effect
  | log : String → Effect
  | setSettings : String → Option Settings → Effect
  | leave : String → Effect
  | json : ListBody → Effect
  deriving DecidableEq

/-- Result of running a handler: its calls, the state it leaves, and how its own
code ended. -/
structure DashRun where
  effects : List Effect
  client : DashClient
  ending : Ending

/-- The guard `checkAuth(req, res, next)`. -/
def checkAuth (req : Request) : List Effect :=
  if req.isAuthenticated then [.next]
  else [.setBackURL (some req.url), .redirect "/login"]

/-- The condition `req.isAuthenticated() && req.user.id === client.appInfo.owner.id`. -/
def isOwnerRequest (client : DashClient) (req : Request) : Bool :=
  req.isAuthenticated &&
    (match req.user with
     | some u => u.id == client.ownerId
     | none => false)

/-- The guard `checkAdmin(req, res, next)`. -/
def checkAdmin (client : DashClient) (req : Request) : List Effect :=
  if isOwnerRequest client req then [.next]
  else [.setBackURL req.originalURL, .redirect "/"]

/-- Number of `next()` calls among the effects. -/
def nextCalls (es : List Effect) : Nat := es.count .next

/-- The redirects among the effects, in order. -/
def redirects : List Effect → List String
  | [] => []
  | .redirect u :: es => u :: redirects es
  | _ :: es => redirects es

/-- The templates rendered among the effects, in order. -/
def renders : List Effect → List String
  | [] => []
  | .render t :: es => t :: renders es
  | _ :: es => renders es

/-- A route `app.get(path, guard, handler)`: the handler runs when the guard
called `next()`. -/
def route (guard : List Effect) (client : DashClient) (handler : DashRun) : DashRun :=
  if nextCalls guard ≠ 0 then { handler with effects := guard ++ handler.effects }
  else { effects := guard, client := client, ending := .returned }

/-- The handler of `GET /admin`. The effect records the file name of the
template; the source resolves it under `assets/dashboard/templates` of the
working directory (its comments say `dashboard/templates`; the code is
followed). -/
def adminPage (client : DashClient) (_req : Request) : DashRun :=
  { effects := [.render "admin.ejs"], client := client, ending := .returned }

/-- The route `app.get('/admin', checkAdmin, ...)`. -/
def getAdmin (client : DashClient) (req : Request) : DashRun :=
  route (checkAdmin client req) client (adminPage client req)

/-- The lookup `client.guilds.get(id)`. -/
def DashClient.guild (client : DashClient) (id : String) : Option Guild :=
  client.guilds.find? (fun g => g.id == id)

/-- The lookup `guild.member(id)`. -/
def Guild.member (guild : Guild) (id : String) : Option GuildMember :=
  guild.members.find? (fun m => m.id == id)

/-- The expression
`guild && !!guild.member(id) ? guild.member(id).permissions.has('MANAGE_GUILD') : false`. -/
def isManaged (guild : Guild) (userId : String) : Bool :=
  match guild.member userId with
  | some m => m.permissions.contains "MANAGE_GUILD"
  | none => false

/-- The access check shared by the guild endpoints: the owner is logged, anyone
else who does not manage the guild is sent a redirect to `/`. There is no
`return` in either branch, so the statements after the check always follow. -/
def accessCheck (client : DashClient) (req : Request) (guild : Guild) (user : User) :
    List Effect :=
  if user.id == client.ownerId then
    [.log ("Admin bypass for managing server: " ++ req.guildID)]
  else if !isManaged guild user.id then [.redirect "/"]
  else []

/-- The statement `client.settings.set(id, value)`. -/
def DashClient.setSettings (client : DashClient) (id : String) (value : Option Settings) :
    DashClient :=
  { client with settings := Function.update client.settings id value }

/-- The loop `for (const key in settings) settings[key] = req.body[key]`. -/
def overwrite (settings : Option Settings) (body : List (String × String)) : Option Settings :=
  settings.map (fun s => s.map (fun kv => (kv.1, body.lookup kv.1)))

/-- The handler of `POST /dashboard/:guildID/manage`. -/
def postManageHandler (client : DashClient) (req : Request) : DashRun :=
  match client.guild req.guildID with
  | none => { effects := [.status 404], client := client, ending := .returned }
  | some guild =>
    match req.user with
    | none =>
      { effects := [], client := client,
        ending := .threw "TypeError: Cannot read property 'id' of undefined" }
    | some user =>
      let settings := overwrite (client.settings guild.id) req.body
      { effects := accessCheck client req guild user ++
          [.setSettings guild.id settings,
           .redirect ("/dashboard/" ++ req.guildID ++ "/manage")],
        client := client.setSettings guild.id settings,
        ending := .returned }

/-- The handler of `GET /dashboard/:guildID/leave`. -/
def getLeaveHandler (client : DashClient) (req : Request) : DashRun :=
  match client.guild req.guildID with
  | none => { effects := [.status 404], client := client, ending := .returned }
  | some guild =>
    match req.user with
    | none =>
      { effects := [], client := client,
        ending := .threw "TypeError: Cannot read property 'id' of undefined" }
    | some user =>
      { effects := accessCheck client req guild user ++
          [.leave guild.id,
           .redirect (if user.id == client.ownerId then "/admin" else "/dashboard")],
        client := { client with left := client.left ++ [guild.id] },
        ending := .returned }

/-- The handler of `GET /dashboard/:guildID/reset`. -/
def getResetHandler (client : DashClient) (req : Request) : DashRun :=
  match client.guild req.guildID with
  | none => { effects := [.status 404], client := client, ending := .returned }
  | some guild =>
    match req.user with
    | none =>
      { effects := [], client := client,
        ending := .threw "TypeError: Cannot read property 'id' of undefined" }
    | some user =>
      { effects := accessCheck client req guild user ++
          [.setSettings guild.id (some client.defaultSettings),
           .redirect ("/dashboard/" ++ req.guildID)],
        client := client.setSettings guild.id (some client.defaultSettings),
        ending := .returned }

/-- The route `app.post('/dashboard/:guildID/manage', checkAuth, ...)`. -/
def postManage (client : DashClient) (req : Request) : DashRun :=
  route (checkAuth req) client (postManageHandler client req)

/-- The route `app.get('/dashboard/:guildID/leave', checkAuth, ...)`. -/
def getLeave (client : DashClient) (req : Request) : DashRun :=
  route (checkAuth req) client (getLeaveHandler client req)

/-- The route `app.get('/dashboard/:guildID/reset', checkAuth, ...)`. -/
def getReset (client : DashClient) (req : Request) : DashRun :=
  route (checkAuth req) client (getResetHandler client req)

/-- Whether the effect writes `client.settings` for the guild `id`. -/
def Effect.writesSettings (id : String) : Effect → Bool
  | .setSettings g _ => g == id
  | _ => false

/-- Whether the effect is a `guild.leave()` on the guild `id`. -/
def Effect.leaves (id : String) : Effect → Bool
  | .leave g => g == id
  | _ => false

/-- The status codes set among the effects, in order. -/
def statuses : List Effect → List Nat
  | [] => []
  | .status c :: es => c :: statuses es
  | _ :: es => statuses es

/-- A member of the example guild who holds `MANAGE_GUILD`. -/
def managerMember : GuildMember :=
  { id := "u2", user := { demoUser with id := "u2", username := "bob", tag := "bob#0001" },
    displayName := "Bob", joinedTimestamp := 0, highestRoleHexColor := "#ff0000",
    roles := [{ name := "Admin", id := "r1", hexColor := "#ff0000" }],
    permissions := ["MANAGE_GUILD"] }

/-- The example guild: `demoMember` without permissions, `managerMember` with
`MANAGE_GUILD`. -/
def demoGuild : Guild := { id := "g1", members := [demoMember, managerMember] }

/-- The example dashboard state. -/
def demoDash : DashClient :=
  { ownerId := "owner",
    guilds := [demoGuild],
    settings := fun id =>
      if id = "g1" then some [("prefix", some "!"), ("modRole", some "Mod")] else none,
    defaultSettings := [("prefix", some "?"), ("modRole", some "Moderator")],
    left := [] }

/-- A logged-in user who is neither the owner nor a member of the example guild. -/
def outsider : User := { demoUser with id := "u9", username := "eve", tag := "eve#0001" }

/-- A request of `outsider` addressed to the example guild. -/
def outsiderRequest : Request :=
  { user := some outsider, url := "/dashboard/g1/reset", originalURL := none,
    guildID := "g1", body := [("prefix", "pwned")], query := fun _ => none }

/-- A settings form posted by `managerMember` that carries `prefix` only. -/
def partialRequest : Request :=
  { user := some managerMember.user, url := "/dashboard/g1/manage", originalURL := none,
    guildID := "g1", body := [("prefix", "?")], query := fun _ => none }

/-! ### The member-list endpoint -/

/-- White space skipped by `parseInt` at the start of its input, by code point:
tab, line feed, vertical tab, form feed, carriage return, space, no-break space,
the space separators, the line and paragraph separators and the byte order mark. -/
def isJsWhiteSpace (c : Char) : Bool :=
  c.toNat == 0x09 || c.toNat == 0x0A || c.toNat == 0x0B || c.toNat == 0x0C ||
  c.toNat == 0x0D || c.toNat == 0x20 || c.toNat == 0xA0 || c.toNat == 0x1680 ||
  (decide (0x2000 ≤ c.toNat) && decide (c.toNat ≤ 0x200A)) ||
  c.toNat == 0x2028 || c.toNat == 0x2029 || c.toNat == 0x202F || c.toNat == 0x205F ||
  c.toNat == 0x3000 || c.toNat == 0xFEFF

/-- Whether the character is one of `0` to `9` (code points 48 to 57). -/
def isDecimalDigit (c : Char) : Bool :=
  decide (48 ≤ c.toNat) && decide (c.toNat ≤ 57)

/-- Value of a run of decimal digits. -/
def digitsValue (ds : List Char) : Nat :=
  ds.foldl (fun n c => 10 * n + (c.toNat - 48)) 0

/-- Sign and remainder of the input of `parseInt` after the white space: a
leading `-` (code point 45) or `+` (code point 43) is taken off. -/
def splitSign : List Char → Bool × List Char
  | [] => (false, [])
  | c :: r =>
    if c.toNat = 45 then (true, r)
    else if c.toNat = 43 then (false, r)
    else (false, c :: r)

/-- Number of halvings that bring `n` below `2 ^ 53`, that is the number of low
bits a double cannot keep; the first argument bounds the count. -/
def dropBits : Nat → Nat → Nat
  | 0, _ => 0
  | f + 1, n => if n < 2 ^ 53 then 0 else dropBits f (n / 2) + 1

/-- The double nearest to a natural number, ties to even; `none` is the overflow
to `Infinity`. Below `2 ^ 53` every natural number is a double. Above, the 53
leading bits are kept and rounded on the bits dropped; a result from `2 ^ 1024`
on overflows. -/
def roundDouble (n : Nat) : Option Nat :=
  if n < 2 ^ 53 then some n
  else
    let k := dropBits n n
    let q := n / 2 ^ k
    let r := n % 2 ^ k
    let up := decide (2 ^ k < 2 * r) || (decide (2 * r = 2 ^ k) && decide (q % 2 = 1))
    let v := (if up then q + 1 else q) * 2 ^ k
    if v < 2 ^ 1024 then some v else none

/-- The number holding an integer: its nearest double. -/
def Num.ofInt (z : Int) : Num :=
  match roundDouble z.natAbs with
  | some v => .fin (if z < 0 then -(v : Int) else (v : Int))
  | none => .inf (decide (z < 0))

/-- The call `parseInt(x, 10)`. An absent parameter is `undefined`, which parses
as `NaN`, as does an input without a digit after the white space and the sign.
Otherwise the result is the double nearest to the value of the digits. (Past
the twentieth significant digit the language standard lets an engine read the
digits as zeros; the value of all digits is taken here.) -/
def parseInt10 : Option String → Num
  | none => .nan
  | some s =>
    let signed := splitSign (s.data.dropWhile isJsWhiteSpace)
    let ds := signed.2.takeWhile isDecimalDigit
    if ds.isEmpty then .nan
    else Num.ofInt (if signed.1 then -(digitsValue ds : Int) else (digitsValue ds : Int))

/-- The expression `n || d` on a number: `NaN` and `0` are falsy. -/
def orDefault (n : Num) (d : Int) : Num :=
  match n with
  | .nan => .fin d
  | .fin v => if v = 0 then .fin d else .fin v
  | .inf b => .inf b

/-- The sum `a + b` of two numbers, rounded to a double. -/
def Num.add : Num → Num → Num
  | .nan, _ => .nan
  | _, .nan => .nan
  | .inf a, .inf b => if a = b then .inf a else .nan
  | .inf a, .fin _ => .inf a
  | .fin _, .inf b => .inf b
  | .fin a, .fin b => Num.ofInt (a + b)

/-- Truthiness of a query parameter: absent and empty strings are falsy. -/
def queryTruthy : Option String → Bool
  | none => false
  | some s => s != ""

/-- Conversion of a relative index of `Array.prototype.slice` to a position:
`NaN` counts as 0, a negative index counts from the end, and the result is
clamped to the length. -/
def sliceIndex (len : Nat) : Num → Nat
  | .nan => 0
  | .inf true => 0
  | .inf false => len
  | .fin i => if i < 0 then (len + i).toNat else min i.toNat len

/-- The call `xs.slice(start, end)`. -/
def jsSlice {α : Type} (xs : List α) (s e : Num) : List α :=
  (xs.drop (sliceIndex xs.length s)).take
    (sliceIndex xs.length e - sliceIndex xs.length s)

/-- The value `Math.ceil(size / limit)` for a collection size. A collection
holds fewer than `2 ^ 32` entries, and for such a size the double quotient has
the ceiling of the exact quotient. A quotient by an infinity is zero; a quotient
by zero or `NaN` is not a finite number. -/
def ceilQuot (size : Nat) : Num → Option Int
  | .nan => none
  | .inf _ => some 0
  | .fin l => if l = 0 then none else some ⌈((size : Int) : ℚ) / (l : ℚ)⌉

/-- The value `(start/limit)+1`. -/
def pageValue : Num → Num → Option ℚ
  | .fin s, .fin l => if l = 0 then none else some ((s : ℚ) / (l : ℚ) + 1)
  | .fin _, .inf _ => some 1
  | _, _ => none

/-- The call `haystack.includes(needle)`. -/
def includes (haystack needle : String) : Bool :=
  decide (needle.data <:+: haystack.data)

/-- Collaborators of the member-list endpoint: `guild.fetchMembers()`, the
string method `toLowerCase`, the collection method `sort` under the comparator
built from the `sortby` key, the clock `Date.now()` and the duration formatter. -/
structure ListEnv where
  fetchMembers : Guild → Except String Guild
  toLowerCase : String → String
  sort : String → List GuildMember → List GuildMember
  now : Int
  formatDuration : Int → String

/-- The filter callback: the display name of the member, or of its user when
`filterUser` is set, lower-cased, is searched for the lower-cased filter. A
missing display name makes `toLowerCase` raise. -/
def filterKeeps (env : ListEnv) (filterUser : Bool) (filter : String) (m : GuildMember) :
    Except String Bool :=
  match (if filterUser then m.user.displayName else some m.displayName) with
  | none => .error "TypeError: Cannot read property 'toLowerCase' of undefined"
  | some name => .ok (includes (env.toLowerCase name) (env.toLowerCase filter))

/-- The call `members.filter(callback)`, stopping at the first error. -/
def filterMembers (env : ListEnv) (filterUser : Bool) (filter : String) :
    List GuildMember → Except String (List GuildMember)
  | [] => .ok []
  | m :: ms =>
    match filterKeeps env filterUser filter m with
    | .error e => .error e
    | .ok keep =>
      match filterMembers env filterUser filter ms with
      | .error e => .error e
      | .ok rest => .ok (if keep then m :: rest else rest)

/-- The members after the optional filter and the optional sort. -/
def selectMembers (env : ListEnv) (req : Request) (guild : Guild) :
    Except String (List GuildMember) :=
  let filtered :=
    match req.query "filter" with
    | some f =>
      if f != "" && f != "null" then
        filterMembers env (queryTruthy (req.query "filterUser")) f guild.members
      else .ok guild.members
    | none => .ok guild.members
  match filtered with
  | .error e => .error e
  | .ok ms =>
    match req.query "sortby" with
    | some k => if k != "" then .ok (env.sort k ms) else .ok ms
    | none => .ok ms

/-- The object pushed to `returnObject` for one member. -/
def memberView (env : ListEnv) (m : GuildMember) : MemberView :=
  { id := m.id, status := m.user.status, bot := m.user.bot, username := m.user.username,
    displayName := m.displayName, tag := m.user.tag, discriminator := m.user.discriminator,
    joinedAt := m.joinedTimestamp, createdAt := m.user.createdTimestamp,
    highestRoleHexColor := m.highestRoleHexColor,
    memberFor := env.formatDuration (env.now - m.joinedTimestamp),
    roles := m.roles.map (fun r => { name := r.name, id := r.id, hexColor := r.hexColor }) }

/-- The value `start` of the handler. -/
def listStart (req : Request) : Num := orDefault (parseInt10 (req.query "start")) 0

/-- The value `limit` of the handler. -/
def listLimit (req : Request) : Num := orDefault (parseInt10 (req.query "limit")) 50

/-- The handler of `GET /dashboard/:guildID/members/list`; it does not change
the state. -/
def membersListHandler (env : ListEnv) (client : DashClient) (req : Request) :
    List Effect × Ending :=
  match client.guild req.guildID with
  | none => ([.status 404], .returned)
  | some guild0 =>
    match (if queryTruthy (req.query "fetch") then env.fetchMembers guild0 else .ok guild0) with
    | .error e => ([], .threw e)
    | .ok guild =>
      let totals := guild.members.length
      let start := listStart req
      let limit := listLimit req
      match selectMembers env req guild with
      | .error e => ([], .threw e)
      | .ok members =>
        let memberArray := jsSlice members start (Num.add start limit)
        ([.json { total := totals,
                  page := pageValue start limit,
                  pageof := ceilQuot members.length limit,
                  members := memberArray.map (memberView env) }], .returned)

/-- The route `app.get('/dashboard/:guildID/members/list', checkAuth, ...)`. -/
def getMembersList (env : ListEnv) (client : DashClient) (req : Request) :
    List Effect × Ending :=
  if nextCalls (checkAuth req) ≠ 0 then
    (checkAuth req ++ (membersListHandler env client req).1, (membersListHandler env client req).2)
  else (checkAuth req, .returned)

/-- Collaborators for the examples: nothing is fetched, names are compared as
they are, and the order is kept. -/
def listEnv : ListEnv :=
  { fetchMembers := fun g => .ok g, toLowerCase := fun t => t, sort := fun _ ms => ms,
    now := 60000, formatDuration := fun _ => " 1 mins" }

/-- A member-list request with the given `start` and `limit` parameters. -/
def listRequest (start limit : Option String) : Request :=
  { user := some demoUser, url := "/dashboard/g1/members/list",
    originalURL := none, guildID := "g1", body := [],
    query := fun k => if k = "start" then start else if k = "limit" then limit else none }

/-- A three-member guild for the paging examples. -/
def pagingGuild : Guild :=
  { id := "g1",
    members := [demoMember, managerMember,
      { demoMember with id := "u3", displayName := "Cy", joinedTimestamp := 1000 }] }

/-- The dashboard state of the paging examples. -/
def pagingDash : DashClient := { demoDash with guilds := [pagingGuild] }

/-! ## Properties of `Reload.run` -/

/-- No string that starts with `E` is the success reply. -/
theorem error_reply_ne_reloaded (pre t name : String) (h : pre.data.head? = some 'E') :
    pre ++ t ≠ reloadedReply name := by
  intro heq
  have hd := congrArg String.data heq
  simp only [reloadedReply, String.data_append] at hd
  cases hp : pre.data with
  | nil => simp [hp] at h
  | cons c cs =>
    rw [hp] at h hd
    simp at h
    subst h
    have := congrArg List.head? hd
    simp at this

/-- C1. When the named command is registered and `unloadCommand` answers with a
truthy response, the run never calls `loadCommand`, sends exactly one reply,
which begins with `Error Unloading:`, does not send the success reply, and
returns leaving the registry as `unloadCommand` left it. -/
theorem reload_unload_failure_aborts (client : Client) (name : String) (rest : List String)
    (cmd : Command) (cs1 : Commands) (response : Response)
    (hget : client.commands.lookup name = some cmd)
    (hun : client.unloadCommand client.commands cmd.conf.location name = (cs1, .ok response))
    (htruthy : response.truthy = true) :
    (∀ e ∈ (Reload.run client (some (name :: rest))).events, e.isLoad = false) ∧
    replies (Reload.run client (some (name :: rest))).events
      = ["Error Unloading: " ++ response.render] ∧
    "Error Unloading:".data <+: ("Error Unloading: " ++ response.render).data ∧
    reloadedReply name ∉ replies (Reload.run client (some (name :: rest))).events ∧
    (Reload.run client (some (name :: rest))).ending = .returned ∧
    (Reload.run client (some (name :: rest))).commands = cs1 := by
  have hrun : Reload.run client (some (name :: rest)) =
      { events := [.lookup (some name), .unload cmd.conf.location name,
                   .reply ("Error Unloading: " ++ response.render)],
        history := [client.commands, cs1], commands := cs1, ending := .returned } := by
    simp [Reload.run, noArgs, argsSize, ltOne, Commands.get, hget, hun, htruthy]
  rw [hrun]
  refine ⟨?_, ?_, ?_, ?_, rfl, rfl⟩
  · intro e he
    simp at he
    rcases he with h | h | h <;> subst h <;> rfl
  · simp [replies]
  · refine ⟨(" " ++ response.render).data, ?_⟩
    simp [String.data_append]
  · simp only [replies, List.mem_singleton]
    intro h
    exact error_reply_ne_reloaded "Error Unloading: " response.render name (by decide) h.symm

/-- Witness for C1 on a loader that refuses to unload `wanted`. -/
theorem reload_unload_failure_aborts_witness :
    (∀ e ∈ (Reload.run stuckClient (some ["wanted"])).events, e.isLoad = false) ∧
    replies (Reload.run stuckClient (some ["wanted"])).events = ["Error Unloading: busy"] ∧
    "Error Unloading:".data <+: ("Error Unloading: " ++ "busy").data ∧
    reloadedReply "wanted" ∉ replies (Reload.run stuckClient (some ["wanted"])).events ∧
    (Reload.run stuckClient (some ["wanted"])).ending = .returned ∧
    (Reload.run stuckClient (some ["wanted"])).commands = stuckClient.commands :=
  reload_unload_failure_aborts stuckClient "wanted" [] { conf := { location := "./commands/fun" } }
    stuckClient.commands (.text "busy") (by decide) rfl (by decide)

/-- A name with no descriptor counted under it is not found by the lookup. -/
theorem lookup_of_count_zero (cs : Commands) (name : String) (h : cs.count name = 0) :
    cs.lookup name = none := by
  induction cs with
  | nil => rfl
  | cons e es ih =>
    obtain ⟨k, v⟩ := e
    unfold Commands.count at h ih
    by_cases hk : k = name
    · subst hk
      simp [List.filter] at h
    · have hk2 : (name == k) = false := by
        simp only [beq_eq_false_iff_ne, ne_eq]
        exact fun h2 => hk h2.symm
      have hk3 : (k == name) = false := by
        simp only [beq_eq_false_iff_ne, ne_eq]
        exact hk
      simp only [List.filter, hk3] at h
      simp only [List.lookup, hk2]
      exact ih h

/-- C2. When the named command is registered (once, as the keys of a map are),
`unloadCommand` succeeds and removes the entry, and `loadCommand` then fails
without inserting, the run ends with the name absent from the registry, has
made exactly one load attempt, replies `Error loading:` once and not that the
command has been reloaded, and no registry state of the run holds two
descriptors under the name. -/
theorem reload_load_failure_leaves_absent (client : Client) (name : String)
    (rest : List String) (cmd : Command) (cs1 : Commands) (r1 r2 : Response)
    (hget : client.commands.lookup name = some cmd)
    (hmap : client.commands.count name ≤ 1)
    (hun : client.unloadCommand client.commands cmd.conf.location name = (cs1, .ok r1))
    (hok : r1.truthy = false)
    (hgone : cs1.count name = 0)
    (hload : client.loadCommand cs1 cmd.conf.location name = (cs1, .ok r2))
    (hfail : r2.truthy = true) :
    (Reload.run client (some (name :: rest))).commands.count name = 0 ∧
    (Reload.run client (some (name :: rest))).commands.lookup name = none ∧
    (Reload.run client (some (name :: rest))).events.filter Event.isLoad
      = [.load cmd.conf.location name] ∧
    (Reload.run client (some (name :: rest))).events.filter Event.isUnload
      = [.unload cmd.conf.location name] ∧
    replies (Reload.run client (some (name :: rest))).events
      = ["Error loading: " ++ r2.render] ∧
    reloadedReply name ∉ replies (Reload.run client (some (name :: rest))).events ∧
    (∀ cs ∈ (Reload.run client (some (name :: rest))).history, cs.count name ≤ 1) ∧
    (Reload.run client (some (name :: rest))).ending = .returned := by
  have hrun : Reload.run client (some (name :: rest)) =
      { events := [.lookup (some name), .unload cmd.conf.location name,
                   .load cmd.conf.location name,
                   .reply ("Error loading: " ++ r2.render)],
        history := [client.commands, cs1, cs1], commands := cs1, ending := .returned } := by
    simp [Reload.run, noArgs, argsSize, ltOne, Commands.get, hget, hun, hok, hload, hfail]
  rw [hrun]
  refine ⟨hgone, lookup_of_count_zero cs1 name hgone, ?_, ?_, ?_, ?_, ?_, rfl⟩
  · simp [List.filter, Event.isLoad]
  · simp [List.filter, Event.isUnload]
  · simp [replies]
  · simp only [replies, List.mem_singleton]
    intro h
    exact error_reply_ne_reloaded "Error loading: " r2.render name (by decide) h.symm
  · intro cs hcs
    simp only [List.mem_cons, List.mem_singleton, List.not_mem_nil, or_false, or_self] at hcs
    rcases hcs with h | h
    · rw [h]; exact hmap
    · rw [h, hgone]; exact Nat.zero_le 1

/-- Witness for C2 on a loader that unloads `wanted` and then cannot load it. -/
theorem reload_load_failure_leaves_absent_witness :
    (Reload.run demoClient (some ["wanted"])).commands.count "wanted" = 0 ∧
    (Reload.run demoClient (some ["wanted"])).commands.lookup "wanted" = none ∧
    (Reload.run demoClient (some ["wanted"])).events.filter Event.isLoad
      = [.load "./commands/fun" "wanted"] ∧
    (Reload.run demoClient (some ["wanted"])).events.filter Event.isUnload
      = [.unload "./commands/fun" "wanted"] ∧
    replies (Reload.run demoClient (some ["wanted"])).events
      = ["Error loading: " ++ "Unable to load command wanted"] ∧
    reloadedReply "wanted" ∉ replies (Reload.run demoClient (some ["wanted"])).events ∧
    (∀ cs ∈ (Reload.run demoClient (some ["wanted"])).history, cs.count "wanted" ≤ 1) ∧
    (Reload.run demoClient (some ["wanted"])).ending = .returned :=
  reload_load_failure_leaves_absent demoClient "wanted" []
    { conf := { location := "./commands/fun" } } [] .falsy
    (.text "Unable to load command wanted")
    (by decide) (by decide) (by rfl) rfl (by decide) (by rfl) (by decide)

/-- A name that is not registered makes the run throw at the read of
`commands.conf`, before any loader call and before any reply. -/
theorem reload_unknown_throws (client : Client) (name : String) (rest : List String)
    (hget : client.commands.lookup name = none) :
    Reload.run client (some (name :: rest)) =
      { events := [.lookup (some name)], history := [client.commands],
        commands := client.commands,
        ending := .threw "TypeError: Cannot read property 'conf' of undefined" } := by
  simp [Reload.run, noArgs, argsSize, ltOne, Commands.get, hget]

/-- C3, evaluated on the code. For the argument `nosuch`, which names no entry
of the registry, the run makes no loader call and leaves the registry unchanged,
but it reports nothing: it throws a `TypeError` and sends no reply. -/
theorem reload_unknown_name_throws :
    (Reload.run demoClient (some ["nosuch"])).ending
      = .threw "TypeError: Cannot read property 'conf' of undefined" ∧
    replies (Reload.run demoClient (some ["nosuch"])).events = [] ∧
    (Reload.run demoClient (some ["nosuch"])).events = [.lookup (some "nosuch")] ∧
    (Reload.run demoClient (some ["nosuch"])).commands = demoClient.commands := by
  rw [reload_unknown_throws demoClient "nosuch" [] (by decide)]
  exact ⟨rfl, rfl, rfl, rfl⟩

/-- C9, evaluated on the code. With `args` absent the run replies
`Must provide a command to reload. Derp.` and does nothing else; with `args` the
empty array the guard `args.size < 1` is false, so the run looks the registry up
under `undefined`, throws a `TypeError` and sends no reply. -/
theorem reload_empty_args_throws (client : Client) :
    (Reload.run client none).events = [.reply "Must provide a command to reload. Derp."] ∧
    (Reload.run client none).ending = .returned ∧
    noArgs (some []) = false ∧
    (Reload.run client (some [])).events = [.lookup none] ∧
    replies (Reload.run client (some [])).events = [] ∧
    (Reload.run client (some [])).ending
      = .threw "TypeError: Cannot read property 'conf' of undefined" := by
  simp [Reload.run, noArgs, argsSize, ltOne, Commands.get, replies]

/-! ## Properties of `Wanted.run` -/

/-- The avatar address rewrite on sample inputs: an animated avatar with a query
string becomes a `.png` address, and an address ending in `.gif` is kept. -/
theorem replaceGif_samples :
    replaceGif "https://cdn.example/avatars/u1/a.gif?size=2048"
      = "https://cdn.example/avatars/u1/a.png" ∧
    replaceGif "https://cdn.example/avatars/u1/a.gif" = "https://cdn.example/avatars/u1/a.gif" ∧
    replaceGif "https://cdn.example/avatars/u1/a.png?size=2048"
      = "https://cdn.example/avatars/u1/a.png?size=2048" := by
  refine ⟨?_, ?_, ?_⟩ <;> decide

/-- The body never touches the ledger. -/
theorem body_ledger (env : WantedEnv) (ledger : Ledger) (pre : List WEvent)
    (wanted : Option GuildMember) : (Wanted.body env ledger pre wanted).ledger = ledger := by
  unfold Wanted.body
  repeat' split
  all_goals rfl

/-- C5, counterexample. The caller has 20, the command costs 5, `cmdPay`
charges, and the first channel send then fails: the run throws and the caller is
left with 15, not 20. -/
theorem wanted_no_refund_counterexample :
    (brokenSendEnv.cmdPay (ledgerOf 20) demoMessage "u1" 5 brokenSendEnv.botPerms).2
      = .ok true ∧
    (Wanted.run brokenSendEnv (ledgerOf 20) demoMessage [] 0).ending
      = .threw "Missing Permissions" ∧
    ledgerOf 20 "u1" = 20 ∧
    (Wanted.run brokenSendEnv (ledgerOf 20) demoMessage [] 0).ledger "u1" = 15 ∧
    (Wanted.run brokenSendEnv (ledgerOf 20) demoMessage [] 0).ledger "u1"
      ≠ ledgerOf 20 "u1" := by
  refine ⟨rfl, rfl, rfl, ?_, ?_⟩ <;> decide

/-- Once the payment went through, the run is the body run on the ledger that
`cmdPay` left. -/
theorem run_of_paid (env : WantedEnv) (ledger ledger1 : Ledger) (message : Message)
    (args : List String) (level : Int) (wanted : Option GuildMember)
    (hres : Wanted.target env message args = .ok wanted)
    (hpay : env.cmdPay ledger message message.authorId (env.cmdDis env.helpCost level)
      env.botPerms = (ledger1, .ok true)) :
    Wanted.run env ledger message args level =
      Wanted.body env ledger1
        (Wanted.targetSteps args ++ [.pay message.authorId (env.cmdDis env.helpCost level)])
        wanted := by
  simp [Wanted.run, hres, Wanted.pay, hpay]

/-- C5, as amended. When the target resolves and `cmdPay` succeeds, leaving the
ledger `ledger1`, the ledger after the run is `ledger1` whatever happens
afterwards: a failure of the first send, of `getWanted`, of the second send or of
the deletion is thrown on to the caller, and nothing is refunded. -/
theorem wanted_failure_keeps_charge (env : WantedEnv) (ledger ledger1 : Ledger)
    (message : Message) (args : List String) (level : Int) (wanted : Option GuildMember)
    (hres : Wanted.target env message args = .ok wanted)
    (hpay : env.cmdPay ledger message message.authorId (env.cmdDis env.helpCost level)
      env.botPerms = (ledger1, .ok true)) :
    (Wanted.run env ledger message args level).ledger = ledger1 ∧
    (∀ e, env.send (.text "Fetching the Sheriff...") = .error e →
      (Wanted.run env ledger message args level).ending = .threw e) ∧
    (∀ msg w e, env.send (.text "Fetching the Sheriff...") = .ok msg → wanted = some w →
      (getWanted env w.user.displayAvatarURL).2 = .error e →
      (Wanted.run env ledger message args level).ending = .threw e) ∧
    (∀ msg w result e, env.send (.text "Fetching the Sheriff...") = .ok msg →
      wanted = some w → (getWanted env w.user.displayAvatarURL).2 = .ok result →
      env.send (.file result "wanted.jpg") = .error e →
      (Wanted.run env ledger message args level).ending = .threw e) ∧
    (∀ msg w result sent e, env.send (.text "Fetching the Sheriff...") = .ok msg →
      wanted = some w → (getWanted env w.user.displayAvatarURL).2 = .ok result →
      env.send (.file result "wanted.jpg") = .ok sent → env.delete msg = .error e →
      (Wanted.run env ledger message args level).ending = .threw e) := by
  rw [run_of_paid env ledger ledger1 message args level wanted hres hpay]
  refine ⟨body_ledger _ _ _ _, ?_, ?_, ?_, ?_⟩
  · intro e h1
    simp [Wanted.body, h1]
  · intro msg w e h1 hw h2
    subst hw
    rcases hg : getWanted env w.user.displayAvatarURL with ⟨evs, res⟩
    rw [hg] at h2
    simp only at h2
    subst h2
    simp [Wanted.body, h1, hg]
  · intro msg w result e h1 hw h2 h3
    subst hw
    rcases hg : getWanted env w.user.displayAvatarURL with ⟨evs, res⟩
    rw [hg] at h2
    simp only at h2
    subst h2
    simp [Wanted.body, h1, hg, h3]
  · intro msg w result sent e h1 hw h2 h3 h4
    subst hw
    rcases hg : getWanted env w.user.displayAvatarURL with ⟨evs, res⟩
    rw [hg] at h2
    simp only at h2
    subst h2
    simp [Wanted.body, h1, hg, h3, h4]

/-- Witness for the amended C5: balance 20, cost 5, the channel rejects the send. -/
theorem wanted_failure_keeps_charge_witness :
    (Wanted.run brokenSendEnv (ledgerOf 20) demoMessage [] 0).ledger
      = Function.update (ledgerOf 20) "u1" 15 ∧
    (Wanted.run brokenSendEnv (ledgerOf 20) demoMessage [] 0).ending
      = .threw "Missing Permissions" :=
  ⟨(wanted_failure_keeps_charge brokenSendEnv (ledgerOf 20)
      (Function.update (ledgerOf 20) "u1" 15) demoMessage [] 0 (some demoMember)
      rfl rfl).1,
   (wanted_failure_keeps_charge brokenSendEnv (ledgerOf 20)
      (Function.update (ledgerOf 20) "u1" 15) demoMessage [] 0 (some demoMember)
      rfl rfl).2.1 "Missing Permissions" rfl⟩

/-- C6. When the target resolves and `cmdPay` gives a falsy result, the run
returns normally right after the payment step: nothing follows it, so no
message is sent, no step of `getWanted` is made and no message is deleted, and
the ledger is the one `cmdPay` left. -/
theorem wanted_unpaid_does_nothing (env : WantedEnv) (ledger ledger1 : Ledger)
    (message : Message) (args : List String) (level : Int) (wanted : Option GuildMember)
    (hres : Wanted.target env message args = .ok wanted)
    (hpay : env.cmdPay ledger message message.authorId (env.cmdDis env.helpCost level)
      env.botPerms = (ledger1, .ok false)) :
    (Wanted.run env ledger message args level).ending = .returned ∧
    (Wanted.run env ledger message args level).events
      = Wanted.targetSteps args ++ [.pay message.authorId (env.cmdDis env.helpCost level)] ∧
    afterPay (Wanted.run env ledger message args level).events = [] ∧
    (∀ ev ∈ (Wanted.run env ledger message args level).events, ev.isBodyStep = false) ∧
    (Wanted.run env ledger message args level).ledger = ledger1 := by
  have hrun : Wanted.run env ledger message args level =
      { events := Wanted.targetSteps args ++
          [.pay message.authorId (env.cmdDis env.helpCost level)],
        ledger := ledger1, ending := .returned } := by
    simp [Wanted.run, hres, Wanted.pay, hpay]
  rw [hrun]
  refine ⟨rfl, rfl, ?_, ?_, rfl⟩
  · unfold Wanted.targetSteps
    split <;> simp [afterPay]
  · intro ev hev
    unfold Wanted.targetSteps at hev
    split at hev
    · simp at hev
      subst hev
      rfl
    · simp at hev
      rcases hev with h | h <;> subst h <;> rfl

/-- Witness for C6: cost 5 against balance 4. -/
theorem wanted_unpaid_does_nothing_witness :
    (Wanted.run brokenSendEnv (ledgerOf 4) demoMessage [] 0).ending = .returned ∧
    (Wanted.run brokenSendEnv (ledgerOf 4) demoMessage [] 0).events = [.pay "u1" 5] ∧
    afterPay (Wanted.run brokenSendEnv (ledgerOf 4) demoMessage [] 0).events = [] ∧
    (∀ ev ∈ (Wanted.run brokenSendEnv (ledgerOf 4) demoMessage [] 0).events,
      ev.isBodyStep = false) ∧
    (Wanted.run brokenSendEnv (ledgerOf 4) demoMessage [] 0).ledger = ledgerOf 4 :=
  wanted_unpaid_does_nothing brokenSendEnv (ledgerOf 4) (ledgerOf 4) demoMessage [] 0
    (some demoMember) rfl rfl

/-! ## Properties of the dashboard guards and guild endpoints -/

/-- C7. `checkAuth` calls `next()` exactly when the request is authenticated,
and then once and without a redirect; otherwise it redirects once, to `/login`,
and does not call `next()`. `checkAdmin` calls `next()` exactly when the request
is authenticated and its user id is the owner id; otherwise it redirects once,
to `/`, and does not call `next()`. The page behind `checkAdmin` is rendered
exactly when the guard called `next()`. -/
theorem guards_gate (client : DashClient) (req : Request) :
    (nextCalls (checkAuth req) ≠ 0 ↔ req.isAuthenticated = true) ∧
    (req.isAuthenticated = true →
      nextCalls (checkAuth req) = 1 ∧ redirects (checkAuth req) = []) ∧
    (req.isAuthenticated = false →
      nextCalls (checkAuth req) = 0 ∧ redirects (checkAuth req) = ["/login"]) ∧
    (nextCalls (checkAdmin client req) ≠ 0 ↔
      (req.isAuthenticated = true ∧ ∃ u, req.user = some u ∧ u.id = client.ownerId)) ∧
    (isOwnerRequest client req = true →
      nextCalls (checkAdmin client req) = 1 ∧ redirects (checkAdmin client req) = []) ∧
    (isOwnerRequest client req = false →
      nextCalls (checkAdmin client req) = 0 ∧ redirects (checkAdmin client req) = ["/"]) ∧
    (renders (getAdmin client req).effects ≠ [] ↔ nextCalls (checkAdmin client req) ≠ 0) := by
  have hown : isOwnerRequest client req = true ↔
      (req.isAuthenticated = true ∧ ∃ u, req.user = some u ∧ u.id = client.ownerId) := by
    unfold isOwnerRequest Request.isAuthenticated
    cases req.user <;> simp
  refine ⟨?_, ?_, ?_, ?_, ?_, ?_, ?_⟩
  · unfold checkAuth
    cases h : req.isAuthenticated <;> simp [nextCalls]
  · intro h
    simp [checkAuth, h, nextCalls, redirects]
  · intro h
    simp [checkAuth, h, nextCalls, redirects]
  · rw [← hown]
    unfold checkAdmin
    cases h : isOwnerRequest client req <;> simp [nextCalls]
  · intro h
    simp [checkAdmin, h, nextCalls, redirects]
  · intro h
    simp [checkAdmin, h, nextCalls, redirects]
  · unfold getAdmin route adminPage checkAdmin
    cases h : isOwnerRequest client req <;> simp [nextCalls, renders]

/-- With a logged-in user and an existing guild, the settings form handler
writes the overwritten settings; the access check only adds to the effects. -/
theorem postManage_eq (client : DashClient) (req : Request) (guild : Guild) (user : User)
    (hguild : client.guild req.guildID = some guild) (huser : req.user = some user) :
    postManage client req =
      { effects := [.next] ++ (accessCheck client req guild user ++
          [.setSettings guild.id (overwrite (client.settings guild.id) req.body),
           .redirect ("/dashboard/" ++ req.guildID ++ "/manage")]),
        client := client.setSettings guild.id (overwrite (client.settings guild.id) req.body),
        ending := .returned } := by
  simp [postManage, route, checkAuth, Request.isAuthenticated, huser, nextCalls,
    postManageHandler, hguild]

/-- C4, evaluated on the code. `outsider` is logged in, is not the owner and is
not a member of guild `g1`. Each of the three endpoints answers the redirect to
`/` and then carries on: the form handler overwrites the stored settings, the
reset handler stores the default settings, and the leave handler calls
`leave()` on the guild. -/
theorem endpoints_mutate_for_outsider :
    outsiderRequest.isAuthenticated = true ∧
    outsider.id ≠ demoDash.ownerId ∧
    isManaged demoGuild outsider.id = false ∧
    (postManage demoDash outsiderRequest).effects
      = [.next, .redirect "/",
         .setSettings "g1" (some [("prefix", some "pwned"), ("modRole", none)]),
         .redirect "/dashboard/g1/manage"] ∧
    (postManage demoDash outsiderRequest).client.settings "g1"
      = some [("prefix", some "pwned"), ("modRole", none)] ∧
    (getReset demoDash outsiderRequest).effects
      = [.next, .redirect "/",
         .setSettings "g1" (some [("prefix", some "?"), ("modRole", some "Moderator")]),
         .redirect "/dashboard/g1"] ∧
    (getReset demoDash outsiderRequest).client.settings "g1"
      = some [("prefix", some "?"), ("modRole", some "Moderator")] ∧
    (getLeave demoDash outsiderRequest).effects
      = [.next, .redirect "/", .leave "g1", .redirect "/dashboard"] ∧
    (getLeave demoDash outsiderRequest).client.left = ["g1"] := by
  refine ⟨rfl, by decide, by decide, ?_, ?_, ?_, ?_, ?_, ?_⟩ <;> decide

/-- C8, counterexample. `managerMember` holds `MANAGE_GUILD` and posts a form
without `modRole`, a key of the stored settings. The request is not rejected:
no status is set, the handler redirects to the manage page, and the stored
`modRole` is overwritten with `undefined`. -/
theorem manage_overwrites_with_undefined :
    isManaged demoGuild managerMember.user.id = true ∧
    partialRequest.body.lookup "modRole" = none ∧
    demoDash.settings "g1" = some [("prefix", some "!"), ("modRole", some "Mod")] ∧
    (postManage demoDash partialRequest).client.settings "g1"
      = some [("prefix", some "?"), ("modRole", none)] ∧
    (postManage demoDash partialRequest).client.settings "g1" ≠ demoDash.settings "g1" ∧
    (postManage demoDash partialRequest).effects
      = [.next, .setSettings "g1" (some [("prefix", some "?"), ("modRole", none)]),
         .redirect "/dashboard/g1/manage"] ∧
    statuses (postManage demoDash partialRequest).effects = [] := by
  refine ⟨by decide, by decide, by decide, ?_, ?_, ?_, ?_⟩ <;> decide

/-- C8, as amended. For an authorised user (the owner, or a member holding
`MANAGE_GUILD`) and an existing guild, the handler rejects nothing: it sets no
status, stores for every key of the current settings the value the body has
under that key, which is `undefined` when the body omits it, keeps the keys in
place, and redirects once, to the manage page of the guild. -/
theorem manage_copies_body (client : DashClient) (req : Request) (guild : Guild) (user : User)
    (hguild : client.guild req.guildID = some guild) (huser : req.user = some user)
    (hauth : user.id = client.ownerId ∨ isManaged guild user.id = true) :
    (postManage client req).client.settings guild.id
      = overwrite (client.settings guild.id) req.body ∧
    statuses (postManage client req).effects = [] ∧
    redirects (postManage client req).effects
      = ["/dashboard/" ++ req.guildID ++ "/manage"] ∧
    (postManage client req).ending = .returned ∧
    (∀ s, client.settings guild.id = some s →
      ∃ s', (postManage client req).client.settings guild.id = some s' ∧
        s'.map Prod.fst = s.map Prod.fst ∧
        ∀ k ∈ s.map Prod.fst, (k, req.body.lookup k) ∈ s') := by
  rw [postManage_eq client req guild user hguild huser]
  have hstore : (client.setSettings guild.id (overwrite (client.settings guild.id)
      req.body)).settings guild.id = overwrite (client.settings guild.id) req.body := by
    simp [DashClient.setSettings]
  have hcheck : statuses (accessCheck client req guild user) = [] ∧
      redirects (accessCheck client req guild user) = [] := by
    unfold accessCheck
    rcases hauth with h | h
    · simp [h, statuses, redirects]
    · by_cases ho : user.id = client.ownerId
      · simp [ho, statuses, redirects]
      · simp [ho, h, statuses, redirects]
  have hst : ∀ (a b : List Effect), statuses (a ++ b) = statuses a ++ statuses b := by
    intro a b
    induction a with
    | nil => rfl
    | cons x xs ih => cases x <;> simp [statuses, ih]
  have hrd : ∀ (a b : List Effect), redirects (a ++ b) = redirects a ++ redirects b := by
    intro a b
    induction a with
    | nil => rfl
    | cons x xs ih => cases x <;> simp [redirects, ih]
  refine ⟨hstore, ?_, ?_, rfl, ?_⟩
  · simp only [hst, hcheck.1]
    simp [statuses]
  · simp only [hrd, hcheck.2]
    simp [redirects]
  · intro s hs
    refine ⟨s.map (fun kv => (kv.1, req.body.lookup kv.1)), ?_, ?_, ?_⟩
    · rw [hstore, hs]
      rfl
    · simp [List.map_map, Function.comp_def]
    · intro k hk
      simp only [List.mem_map] at hk ⊢
      obtain ⟨kv, hkv, rfl⟩ := hk
      exact ⟨kv, hkv, rfl⟩

/-- Witness for the amended C8: the form of `managerMember` without `modRole`. -/
theorem manage_copies_body_witness :
    (postManage demoDash partialRequest).client.settings demoGuild.id
      = overwrite (demoDash.settings demoGuild.id) partialRequest.body ∧
    statuses (postManage demoDash partialRequest).effects = [] ∧
    redirects (postManage demoDash partialRequest).effects
      = ["/dashboard/" ++ partialRequest.guildID ++ "/manage"] ∧
    (postManage demoDash partialRequest).ending = .returned ∧
    (∀ s, demoDash.settings demoGuild.id = some s →
      ∃ s', (postManage demoDash partialRequest).client.settings demoGuild.id = some s' ∧
        s'.map Prod.fst = s.map Prod.fst ∧
        ∀ k ∈ s.map Prod.fst, (k, partialRequest.body.lookup k) ∈ s') :=
  manage_copies_body demoDash partialRequest demoGuild managerMember.user
    (by decide) rfl (Or.inr (by decide))

/-! ## Properties of the member-list endpoint -/

/-- The integer parse on sample inputs. -/
theorem parseInt10_samples :
    parseInt10 none = .nan ∧ parseInt10 (some "abc") = .nan ∧ parseInt10 (some "") = .nan ∧
    parseInt10 (some "0") = .fin 0 ∧ parseInt10 (some " 12px") = .fin 12 ∧
    parseInt10 (some "-3") = .fin (-3) ∧ parseInt10 (some "+7") = .fin 7 ∧
    parseInt10 (some "9007199254740993") = .fin 9007199254740992 ∧
    parseInt10 (some "9007199254740995") = .fin 9007199254740996 ∧
    orDefault (parseInt10 (some "abc")) 50 = .fin 50 ∧
    orDefault (parseInt10 (some "0")) 50 = .fin 50 ∧
    orDefault (parseInt10 (some "25")) 50 = .fin 25 := by
  refine ⟨?_, ?_, ?_, ?_, ?_, ?_, ?_, ?_, ?_, ?_, ?_, ?_⟩ <;> decide

/-- Below `2 ^ 53` rounding to a double changes nothing. -/
theorem roundDouble_small (n : Nat) (hn : n < 2 ^ 53) : roundDouble n = some n := by
  unfold roundDouble
  rw [if_pos hn]

/-- The bits kept after dropping are at least 53: `2 ^ 52` times the dropped
power of two stays below the number. -/
theorem dropBits_bound (f n : Nat) (hf : n ≤ f) (hn : 2 ^ 53 ≤ n) :
    2 ^ 52 * 2 ^ dropBits f n ≤ n := by
  induction f generalizing n with
  | zero =>
    have : (0 : Nat) < 2 ^ 53 := Nat.two_pow_pos 53
    omega
  | succ f ih =>
    have h1 : ¬ (n < 2 ^ 53) := Nat.not_lt.2 hn
    simp only [dropBits, h1, if_false]
    by_cases h2 : 2 ^ 53 ≤ n / 2
    · have h3 := ih (n / 2) (by omega) h2
      have h6 : 2 ^ 52 * 2 ^ (dropBits f (n / 2) + 1)
          = 2 * (2 ^ 52 * 2 ^ dropBits f (n / 2)) := by ring
      rw [h6]
      omega
    · have h4 : dropBits f (n / 2) = 0 := by
        cases f with
        | zero => rfl
        | succ g => simp only [dropBits, Nat.lt_of_not_le h2, if_true]
      rw [h4]
      have h5 : (2 : Nat) ^ 52 * 2 ^ (0 + 1) = 2 ^ 53 := by decide
      rw [h5]
      exact hn

/-- From `2 ^ 53` on, the rounded value is at least `2 ^ 52`. -/
theorem roundDouble_large (n v : Nat) (hn : 2 ^ 53 ≤ n) (h : roundDouble n = some v) :
    2 ^ 52 ≤ v := by
  have hk := dropBits_bound n n (le_refl n) hn
  have hq : 2 ^ 52 ≤ n / 2 ^ dropBits n n :=
    (Nat.le_div_iff_mul_le (Nat.two_pow_pos _)).2 hk
  have hone : 0 < 2 ^ dropBits n n := Nat.two_pow_pos _
  unfold roundDouble at h
  rw [if_neg (Nat.not_lt.2 hn)] at h
  simp only at h
  split_ifs at h
  all_goals
    injection h with h
    subst h
    first
      | exact le_trans hq (le_trans (Nat.le_succ _) (Nat.le_mul_of_pos_right _ hone))
      | exact le_trans hq (Nat.le_mul_of_pos_right _ hone)

/-- The number holding a natural below `2 ^ 53` is that natural. -/
theorem ofInt_small (n : Nat) (hn : n < 2 ^ 53) : Num.ofInt (n : Int) = .fin (n : Int) := by
  have h0 : ¬ ((n : Int) < 0) := by omega
  simp only [Num.ofInt, Int.natAbs_ofNat, roundDouble_small n hn, h0, if_false]

/-- For a length below `2 ^ 52`, the slice position of the double of a
non-negative integer is the integer clamped to the length. -/
theorem sliceIndex_ofInt (len : Nat) (z : Int) (hlen : len < 2 ^ 52) (hz : 0 ≤ z) :
    sliceIndex len (Num.ofInt z) = min z.toNat len := by
  obtain ⟨n, rfl⟩ := Int.eq_ofNat_of_zero_le hz
  have h0 : ¬ ((n : Int) < 0) := by omega
  by_cases hn : n < 2 ^ 53
  · rw [ofInt_small n hn]
    simp only [sliceIndex, h0, if_false, Int.toNat_ofNat]
  · have hge : 2 ^ 53 ≤ n := Nat.le_of_not_lt hn
    have hmin : min (n : Int).toNat len = len := by
      simp only [Int.toNat_ofNat]
      have : (2 : Nat) ^ 52 ≤ 2 ^ 53 := by decide
      omega
    rw [hmin]
    unfold Num.ofInt
    simp only [Int.natAbs_ofNat]
    cases hr : roundDouble n with
    | none =>
      simp only [h0, decide_False]
      rfl
    | some v =>
      have hv := roundDouble_large n v hge hr
      simp only [h0, if_false]
      have h1 : ¬ ((v : Int) < 0) := by omega
      simp only [sliceIndex, h1, if_false, Int.toNat_ofNat]
      omega

/-- For a non-negative start and a positive limit, the slice is the window of
`limit` elements from position `start`. -/
theorem jsSlice_window {α : Type} (xs : List α) (s l : Int) (hs : 0 ≤ s) (hl : 0 < l)
    (hlen : xs.length < 2 ^ 32) :
    jsSlice xs (.fin s) (Num.add (.fin s) (.fin l)) = (xs.drop s.toNat).take l.toNat := by
  have hlen2 : xs.length < 2 ^ 52 := lt_of_lt_of_le hlen (by decide)
  have hadd : Num.add (.fin s) (.fin l) = Num.ofInt (s + l) := rfl
  have h1 : ¬ (s < 0) := by omega
  rw [hadd]
  unfold jsSlice
  rw [sliceIndex_ofInt xs.length (s + l) hlen2 (by omega)]
  simp only [sliceIndex, h1, if_false]
  obtain ⟨a, rfl⟩ := Int.eq_ofNat_of_zero_le hs
  obtain ⟨b, rfl⟩ := Int.eq_ofNat_of_zero_le (le_of_lt hl)
  have h3 : ((a : Int) + (b : Int)).toNat = a + b := by omega
  simp only [h3, Int.toNat_ofNat]
  by_cases hle : xs.length ≤ a
  · rw [List.drop_eq_nil_of_le hle, List.drop_eq_nil_of_le (by omega)]
    simp
  · have ha : min a xs.length = a := by omega
    rw [ha, List.take_eq_take, List.length_drop]
    omega

/-- For a non-negative start and an infinite limit, the slice is the rest of
the list from position `start`. -/
theorem jsSlice_rest {α : Type} (xs : List α) (s : Int) (hs : 0 ≤ s) :
    jsSlice xs (.fin s) (Num.add (.fin s) (.inf false)) = xs.drop s.toNat := by
  have hadd : Num.add (.fin s) (.inf false) = .inf false := rfl
  have h1 : ¬ (s < 0) := by omega
  rw [hadd]
  unfold jsSlice
  simp only [sliceIndex, h1, if_false]
  by_cases hle : xs.length ≤ s.toNat
  · rw [List.drop_eq_nil_of_le hle, List.drop_eq_nil_of_le (by omega)]
    simp
  · have ha : min s.toNat xs.length = s.toNat := by omega
    rw [ha]
    apply List.take_of_length_le
    rw [List.length_drop]

/-- Ceiling of a quotient of integers with a positive divisor. -/
theorem ceil_div_eq (a b : Int) (hb : 0 < b) :
    ⌈(a : ℚ) / (b : ℚ)⌉ = (a + b - 1) / b := by
  have hbq : (0 : ℚ) < (b : ℚ) := by exact_mod_cast hb
  have hdm := Int.emod_add_ediv (a + b - 1) b
  have hr0 := Int.emod_nonneg (a + b - 1) (ne_of_gt hb)
  have hr1 := Int.emod_lt_of_pos (a + b - 1) hb
  rw [Int.ceil_eq_iff]
  constructor
  · rw [lt_div_iff₀ hbq]
    have h : ((a + b - 1) / b - 1) * b < a := by nlinarith
    exact_mod_cast h
  · rw [div_le_iff₀ hbq]
    have h : a ≤ ((a + b - 1) / b) * b := by nlinarith
    exact_mod_cast h

/-- A decimal digit is not white space. -/
theorem digit_not_space (c : Char) (h : 48 ≤ c.toNat ∧ c.toNat ≤ 57) :
    isJsWhiteSpace c = false := by
  have hc : c.toNat = 48 ∨ c.toNat = 49 ∨ c.toNat = 50 ∨ c.toNat = 51 ∨ c.toNat = 52 ∨
      c.toNat = 53 ∨ c.toNat = 54 ∨ c.toNat = 55 ∨ c.toNat = 56 ∨ c.toNat = 57 := by omega
  unfold isJsWhiteSpace
  rcases hc with h | h | h | h | h | h | h | h | h | h <;> rw [h] <;> decide

/-- The value of a run of digits is the number they write in base ten. -/
theorem digitsValue_eq (ds : List Char) :
    digitsValue ds = Nat.ofDigits 10 ((ds.map (fun c => c.toNat - 48)).reverse) := by
  induction ds using List.reverseRecOn with
  | nil => rfl
  | append_singleton xs c ih =>
    unfold digitsValue at ih ⊢
    rw [List.foldl_append, ih]
    simp only [List.foldl_cons, List.foldl_nil, List.map_append, List.map_cons, List.map_nil,
      List.reverse_append, List.reverse_cons, List.reverse_nil, List.nil_append,
      List.singleton_append, Nat.ofDigits_cons]
    omega

/-- A non-empty string of decimal digits parses to the double of the number it
writes. -/
theorem parseInt10_digits (ds : List Char) (hne : ds ≠ [])
    (hd : ∀ c ∈ ds, 48 ≤ c.toNat ∧ c.toNat ≤ 57) :
    parseInt10 (some (String.mk ds))
      = Num.ofInt ((Nat.ofDigits 10 ((ds.map (fun c => c.toNat - 48)).reverse) : Nat) : Int) := by
  cases ds with
  | nil => exact absurd rfl hne
  | cons c r =>
    have hc := hd c (List.mem_cons_self c r)
    have hdrop : List.dropWhile isJsWhiteSpace (c :: r) = c :: r := by
      rw [List.dropWhile_cons, digit_not_space c hc]
      rfl
    have hsign : splitSign (c :: r) = (false, c :: r) := by
      have h45 : ¬ (c.toNat = 45) := by omega
      have h43 : ¬ (c.toNat = 43) := by omega
      simp only [splitSign, h45, h43, if_false]
    have htake : List.takeWhile isDecimalDigit (c :: r) = c :: r := by
      rw [List.takeWhile_eq_self_iff]
      intro x hx
      have := hd x hx
      simp only [isDecimalDigit, Bool.and_eq_true, decide_eq_true_eq]
      exact this
    simp only [parseInt10, hdrop, hsign, htake, List.isEmpty_cons, Bool.false_eq_true, if_false]
    rw [digitsValue_eq]

/-- A string without a decimal digit parses to `NaN`. -/
theorem parseInt10_no_digit (t : String) (h : ∀ c ∈ t.data, isDecimalDigit c = false) :
    parseInt10 (some t) = .nan := by
  have hsub : ∀ c ∈ (splitSign (t.data.dropWhile isJsWhiteSpace)).2, c ∈ t.data := by
    intro c hc
    have hdw : ∀ x ∈ t.data.dropWhile isJsWhiteSpace, x ∈ t.data :=
      fun x hx => (List.dropWhile_sublist isJsWhiteSpace).subset hx
    cases hl : t.data.dropWhile isJsWhiteSpace with
    | nil =>
      rw [hl] at hc
      simp [splitSign] at hc
    | cons y ys =>
      rw [hl] at hc hdw
      simp only [splitSign] at hc
      split_ifs at hc
      · exact hdw c (List.mem_cons_of_mem _ hc)
      · exact hdw c (List.mem_cons_of_mem _ hc)
      · exact hdw c hc
  have htake : List.takeWhile isDecimalDigit
      (splitSign (t.data.dropWhile isJsWhiteSpace)).2 = [] := by
    cases hm : (splitSign (t.data.dropWhile isJsWhiteSpace)).2 with
    | nil => rfl
    | cons y ys =>
      rw [hm] at hsub
      have hy := h y (hsub y (List.mem_cons_self y ys))
      simp [List.takeWhile, hy]
  simp only [parseInt10, htake, List.isEmpty_nil, if_true]

/-- The limit is neither zero nor `NaN`. -/
theorem listLimit_ne_zero (req : Request) :
    listLimit req ≠ .fin 0 ∧ listLimit req ≠ .nan := by
  unfold listLimit orDefault
  split
  · exact ⟨by decide, by decide⟩
  · split
    · exact ⟨by decide, by decide⟩
    · rename_i v _ hv
      refine ⟨?_, by simp⟩
      intro h
      injection h with h
      exact hv h
  · exact ⟨by simp, by simp⟩

/-- C10. When the guild exists, the optional fetch succeeds and the filter and
sort give the sequence `F` (an array, so of fewer than `2 ^ 32` entries), the
handler answers one JSON body whose `total` is the member count of the guild.
The limit is never zero; it is 50 when the `limit` parameter is missing, has no
digit, does not parse or parses to 0, and the start is 0 when the `start`
parameter is missing, has no digit or does not parse. A parameter written in
decimal digits gives the number it writes (below `2 ^ 53`, where doubles are
exact). For every parsed start of at least 0 and every parsed positive limit,
`members` is the window of `F` from `start` of at most `limit` entries, in
order, each entry carrying the fields of its member; its length is
`min limit (|F| - start)`, and `pageof` is the ceiling of `|F| / limit`. For an
infinite limit `members` is the rest of `F` from `start` and `pageof` is 0; for
an infinite start `members` is empty. -/
theorem members_list_paging (env : ListEnv) (client : DashClient) (req : Request)
    (guild0 guild : Guild) (F : List GuildMember)
    (hguild : client.guild req.guildID = some guild0)
    (hfetch : (if queryTruthy (req.query "fetch") then env.fetchMembers guild0
      else .ok guild0) = .ok guild)
    (hsel : selectMembers env req guild = .ok F)
    (hF : F.length < 2 ^ 32) :
    ∃ body, membersListHandler env client req = ([.json body], .returned) ∧
      body.total = guild.members.length ∧
      (listLimit req ≠ .fin 0 ∧ listLimit req ≠ .nan) ∧
      (req.query "limit" = none ∨ parseInt10 (req.query "limit") = .nan ∨
        parseInt10 (req.query "limit") = .fin 0 → listLimit req = .fin 50) ∧
      (∀ t, req.query "limit" = some t → (∀ c ∈ t.data, ¬ (48 ≤ c.toNat ∧ c.toNat ≤ 57)) →
        listLimit req = .fin 50) ∧
      (req.query "start" = none ∨ parseInt10 (req.query "start") = .nan →
        listStart req = .fin 0) ∧
      (∀ t, req.query "start" = some t → (∀ c ∈ t.data, ¬ (48 ≤ c.toNat ∧ c.toNat ≤ 57)) →
        listStart req = .fin 0) ∧
      (∀ (ds : List Char) (n : Nat), req.query "limit" = some (String.mk ds) → ds ≠ [] →
        (∀ c ∈ ds, 48 ≤ c.toNat ∧ c.toNat ≤ 57) →
        Nat.ofDigits 10 ((ds.map (fun c => c.toNat - 48)).reverse) = n → n < 2 ^ 53 →
        listLimit req = .fin (if n = 0 then 50 else (n : Int))) ∧
      (∀ (ds : List Char) (n : Nat), req.query "start" = some (String.mk ds) → ds ≠ [] →
        (∀ c ∈ ds, 48 ≤ c.toNat ∧ c.toNat ≤ 57) →
        Nat.ofDigits 10 ((ds.map (fun c => c.toNat - 48)).reverse) = n → n < 2 ^ 53 →
        listStart req = .fin (n : Int)) ∧
      (∀ m : GuildMember, memberView env m =
        { id := m.id, status := m.user.status, bot := m.user.bot,
          username := m.user.username, displayName := m.displayName, tag := m.user.tag,
          discriminator := m.user.discriminator, joinedAt := m.joinedTimestamp,
          createdAt := m.user.createdTimestamp,
          highestRoleHexColor := m.highestRoleHexColor,
          memberFor := env.formatDuration (env.now - m.joinedTimestamp),
          roles := m.roles }) ∧
      (∀ s l : Int, listStart req = .fin s → listLimit req = .fin l → 0 ≤ s → 0 < l →
        body.members = ((F.drop s.toNat).take l.toNat).map (memberView env) ∧
        body.members.length = min l.toNat (F.length - s.toNat) ∧
        (body.members.length : Int) ≤ l ∧
        body.pageof = some ⌈((F.length : Int) : ℚ) / (l : ℚ)⌉ ∧
        body.pageof = some (((F.length : Int) + l - 1) / l)) ∧
      (∀ s : Int, listStart req = .fin s → listLimit req = .inf false → 0 ≤ s →
        body.members = (F.drop s.toNat).map (memberView env) ∧
        body.pageof = some 0) ∧
      (∀ l : Int, listLimit req = .fin l → 0 < l →
        body.pageof = some ⌈((F.length : Int) : ℚ) / (l : ℚ)⌉) ∧
      (listLimit req = .inf false → body.pageof = some 0) ∧
      (listStart req = .inf false → body.members = []) := by
  have hnodigit : ∀ t : String, (∀ c ∈ t.data, ¬ (48 ≤ c.toNat ∧ c.toNat ≤ 57)) →
      parseInt10 (some t) = .nan := by
    intro t ht
    apply parseInt10_no_digit
    intro c hc
    have := ht c hc
    simp only [isDecimalDigit, Bool.and_eq_false_iff, decide_eq_false_iff_not]
    omega
  refine ⟨{ total := guild.members.length,
            page := pageValue (listStart req) (listLimit req),
            pageof := ceilQuot F.length (listLimit req),
            members := (jsSlice F (listStart req)
              (Num.add (listStart req) (listLimit req))).map (memberView env) },
    ?_, rfl, listLimit_ne_zero req, ?_, ?_, ?_, ?_, ?_, ?_, ?_, ?_, ?_, ?_, ?_, ?_⟩
  · simp only [membersListHandler, hguild, hfetch, hsel]
  · intro h
    rcases h with h | h | h
    · simp [listLimit, h, parseInt10, orDefault]
    · simp [listLimit, h, orDefault]
    · simp [listLimit, h, orDefault]
  · intro t ht hd
    simp [listLimit, ht, hnodigit t hd, orDefault]
  · intro h
    rcases h with h | h
    · simp [listStart, h, parseInt10, orDefault]
    · simp [listStart, h, orDefault]
  · intro t ht hd
    simp [listStart, ht, hnodigit t hd, orDefault]
  · intro ds n hq hne hd hn hlt
    subst hn
    simp only [listLimit, hq, parseInt10_digits ds hne hd, ofInt_small _ hlt, orDefault]
    split_ifs with h1 h2 h2
    · rfl
    · exact absurd (by exact_mod_cast h1) h2
    · exact absurd (by exact_mod_cast h2) h1
    · rfl
  · intro ds n hq hne hd hn hlt
    subst hn
    simp only [listStart, hq, parseInt10_digits ds hne hd, ofInt_small _ hlt, orDefault]
    split_ifs with h1
    · rw [h1]
    · rfl
  · intro m
    simp [memberView]
  · intro s l hs hl h0 hpos
    dsimp only
    rw [hs, hl, jsSlice_window F s l h0 hpos hF]
    have hl0 : l ≠ 0 := by omega
    refine ⟨rfl, ?_, ?_, ?_, ?_⟩
    · simp [List.length_take, List.length_drop]
    · simp only [List.length_map, List.length_take, List.length_drop]
      omega
    · simp only [ceilQuot, hl0, if_false]
    · simp only [ceilQuot, hl0, if_false]
      rw [ceil_div_eq _ _ hpos]
  · intro s hs hl h0
    dsimp only
    rw [hs, hl, jsSlice_rest F s h0]
    exact ⟨rfl, rfl⟩
  · intro l hl hpos
    have hl0 : l ≠ 0 := by omega
    dsimp only
    rw [hl]
    simp only [ceilQuot, hl0, if_false]
  · intro hl
    dsimp only
    rw [hl]
    rfl
  · intro hs
    dsimp only
    rw [hs]
    simp [jsSlice, sliceIndex]

/-- Witness for C10 on a guild of three members. With `start=1` and `limit=1`
the answer holds the second member only and counts three pages. With no `start`
and `limit=0` the limit is 50, all three members are listed and there is one
page. With a limit of four hundred nines the limit is infinite, all three
members are listed and `pageof` is 0. -/
theorem members_list_paging_witness :
    (∃ body, membersListHandler listEnv pagingDash (listRequest (some "1") (some "1"))
        = ([.json body], .returned) ∧
      body.total = 3 ∧ body.pageof = some 3 ∧
      body.members =
        [MemberView.mk "u2" "online" false "bob" "Bob" "bob#0001" "0001" 0 0 "#ff0000"
          " 1 mins" [Role.mk "Admin" "r1" "#ff0000"]]) ∧
    (∃ body, membersListHandler listEnv pagingDash (listRequest none (some "0"))
        = ([.json body], .returned) ∧
      listLimit (listRequest none (some "0")) = .fin 50 ∧
      listStart (listRequest none (some "0")) = .fin 0 ∧
      body.pageof = some 1 ∧
      body.members = pagingGuild.members.map (memberView listEnv)) ∧
    (∃ body, membersListHandler listEnv pagingDash
        (listRequest none (some (String.mk (List.replicate 400 '9'))))
        = ([.json body], .returned) ∧
      listLimit (listRequest none (some (String.mk (List.replicate 400 '9')))) = .inf false ∧
      body.pageof = some 0 ∧
      body.members = pagingGuild.members.map (memberView listEnv)) := by
  refine ⟨?_, ?_, ?_⟩
  · obtain ⟨body, h1, h2, _, _, _, _, _, _, _, _, h11, _⟩ :=
      members_list_paging listEnv pagingDash (listRequest (some "1") (some "1"))
        pagingGuild pagingGuild pagingGuild.members (by decide) rfl rfl (by decide)
    have h := h11 1 1 (by decide) (by decide) (by decide) (by decide)
    refine ⟨body, h1, h2, ?_, ?_⟩
    · rw [h.2.2.2.2]
      decide
    · rw [h.1]
      rfl
  · obtain ⟨body, h1, _, _, h4, _, h6, _, _, _, _, h11, _⟩ :=
      members_list_paging listEnv pagingDash (listRequest none (some "0"))
        pagingGuild pagingGuild pagingGuild.members (by decide) rfl rfl (by decide)
    have hl := h4 (Or.inr (Or.inr (by decide)))
    have hs := h6 (Or.inl rfl)
    have h := h11 0 50 hs hl (by decide) (by decide)
    refine ⟨body, h1, hl, hs, ?_, ?_⟩
    · rw [h.2.2.2.2]
      decide
    · rw [h.1]
      rfl
  · obtain ⟨body, h1, _, _, _, _, h6, _, _, _, _, _, h12, _⟩ :=
      members_list_paging listEnv pagingDash
        (listRequest none (some (String.mk (List.replicate 400 '9'))))
        pagingGuild pagingGuild pagingGuild.members (by decide) rfl rfl (by decide)
    have hl : listLimit (listRequest none (some (String.mk (List.replicate 400 '9'))))
        = .inf false := by
      set_option maxRecDepth 100000 in decide
    have hs := h6 (Or.inl rfl)
    have h := h12 0 hs hl (by decide)
    exact ⟨body, h1, hl, h.2, h.1⟩

end LLH
